import Mathlib

/-!
Shallow embedding of `src/sports_scores.py` (SportsScoreTracker) and proofs
about its performance-classification, score-aggregation, team resolution,
averages-cache refresh and per-cycle rendering logic.

Python floats are modelled as exact rationals (`ℚ`); a value on which
`float(...)` would raise is modelled by `PyVal.bad`; Python exceptions that a
`try/except` turns into a `None` result are modelled by `Option`; the mutable
tracker object is modelled by an explicit `TrackerState` record, with
`datetime.now()` passed in as a rational number of seconds and each HTTP fetch
passed in as pre-parsed data (`none` = the fetch raised or no stats table was
found).
-/

namespace SportsScores

/-- The four performance buckets of the spec; the source represents them only
by their glyph strings. -/
inductive Rating
  | hot
  | cold
  | neutral
  | noData
deriving DecidableEq, Repr, Fintype

/-- The glyph string the source returns for each rating:
🔥 hot, ❄️ cold, ➖ neutral, ⚪ no data. -/
def glyph : Rating → String
  | .hot => "🔥"
  | .cold => "❄️"
  | .neutral => "➖"
  | .noData => "⚪"

/-- `analyze_performance(current_score, avg_score_per_game)` from the source:
`not avg` (absent or zero) gives the no-data glyph; otherwise the percentage
difference is compared against the inclusive ±5 thresholds. -/
def analyze_performance (current_score : ℚ) (avg_score_per_game : Option ℚ) : String :=
  match avg_score_per_game with
  | none => "⚪"
  | some expected_score =>
    if expected_score = 0 then "⚪"
    else
      let diff_percentage := (current_score - expected_score) / expected_score * 100
      if diff_percentage ≥ 5 then "🔥"
      else if diff_percentage ≤ -5 then "❄️"
      else "➖"

/-- `analyze_performance` at the `Rating` level (same branch structure as the
source; `glyph ∘ classify = analyze_performance`). -/
def classify (current_score : ℚ) (avg_score_per_game : Option ℚ) : Rating :=
  match avg_score_per_game with
  | none => .noData
  | some expected_score =>
    if expected_score = 0 then .noData
    else
      let diff_percentage := (current_score - expected_score) / expected_score * 100
      if diff_percentage ≥ 5 then .hot
      else if diff_percentage ≤ -5 then .cold
      else .neutral

/-- A JSON field value as seen by `float(...)`: either a value that converts
to a number, or one on which `float` raises. -/
inductive PyVal
  | num (q : ℚ)
  | bad
deriving DecidableEq, Repr

/-- `float(entry.get(k, 0))` for an optional field: a missing key defaults to
`0`; a malformed value makes `float` raise, modelled as `none`. -/
def entryVal : Option PyVal → Option ℚ
  | none => some 0
  | some (.num q) => some q
  | some .bad => none

/-- A competitor record from the scoreboard feed: team name and id, the
optional `score` field, and the optional `linescores` list (each entry's
optional `value` field). -/
structure Competitor where
  name : String
  teamId : String
  score : Option PyVal
  linescores : Option (List (Option PyVal))
deriving DecidableEq, Repr

/-- `get_halftime_score(competitor)` from the source: requires a `linescores`
list of length ≥ 2 and sums `float(e.get('value', 0))` over the first two
entries; any raised exception (a malformed value) yields `None`. -/
def get_halftime_score (competitor : Competitor) : Option ℚ :=
  match competitor.linescores with
  | some (e0 :: e1 :: _) =>
    match entryVal e0, entryVal e1 with
    | some a, some b => some (a + b)
    | _, _ => none
  | _ => none

/-- Modelled from the spec: the spec's reading of `get_halftime_score`, in
which a malformed or missing period value defaults to `0` instead of making
the whole result absent. Used only to compare against the source's
behaviour. -/
def get_halftime_score_specReading (competitor : Competitor) : Option ℚ :=
  match competitor.linescores with
  | some (e0 :: e1 :: _) =>
    some ((entryVal e0).getD 0 + (entryVal e1).getD 0)
  | _ => none

/-- Python's `str.lower()` on the character list of a string. -/
def lowerL (s : String) : List Char :=
  s.toList.map Char.toLower

/-- Whether `needle` occurs at the head of `hay`. -/
def startsWithL : List Char → List Char → Bool
  | _, [] => true
  | [], _ :: _ => false
  | c :: cs, d :: ds => c == d && startsWithL cs ds

/-- Python's substring test `needle in hay` on character lists. -/
def containsL : List Char → List Char → Bool
  | [], needle => needle.isEmpty
  | c :: cs, needle => startsWithL (c :: cs) needle || containsL cs needle

/-- `self.nba_team_mappings` from the source, in insertion order:
ESPN nickname to teamrankings.com market name. -/
def nba_team_mappings : List (String × String) :=
  [("Hawks", "Atlanta"), ("Celtics", "Boston"), ("Nets", "Brooklyn"),
   ("Hornets", "Charlotte"), ("Bulls", "Chicago"), ("Cavaliers", "Cleveland"),
   ("Mavericks", "Dallas"), ("Nuggets", "Denver"), ("Pistons", "Detroit"),
   ("Warriors", "Golden State"), ("Rockets", "Houston"), ("Pacers", "Indiana"),
   ("Clippers", "LA Clippers"), ("Lakers", "LA Lakers"),
   ("Grizzlies", "Memphis"), ("Heat", "Miami"), ("Bucks", "Milwaukee"),
   ("Timberwolves", "Minnesota"), ("Pelicans", "New Orleans"),
   ("Knicks", "New York"), ("Thunder", "Okla City"), ("Magic", "Orlando"),
   ("76ers", "Philadelphia"), ("Suns", "Phoenix"),
   ("Trail Blazers", "Portland"), ("Kings", "Sacramento"),
   ("Spurs", "San Antonio"), ("Raptors", "Toronto"), ("Jazz", "Utah"),
   ("Wizards", "Washington")]

/-- `team_id_mappings` from `get_team_stats`: ESPN numeric team id to
nickname. -/
def team_id_mappings : List (String × String) :=
  [("1", "Hawks"), ("2", "Celtics"), ("3", "Nets"), ("4", "Hornets"),
   ("5", "Bulls"), ("6", "Cavaliers"), ("7", "Mavericks"), ("8", "Nuggets"),
   ("9", "Pistons"), ("10", "Warriors"), ("11", "Rockets"), ("12", "Pacers"),
   ("13", "Clippers"), ("14", "Lakers"), ("15", "Grizzlies"), ("16", "Heat"),
   ("17", "Bucks"), ("18", "Timberwolves"), ("19", "Pelicans"),
   ("20", "Knicks"), ("21", "Thunder"), ("22", "Magic"), ("23", "76ers"),
   ("24", "Suns"), ("25", "Trail Blazers"), ("26", "Kings"), ("27", "Spurs"),
   ("28", "Raptors"), ("29", "Jazz"), ("30", "Wizards")]

/-- Dict lookup by string key over an association list. -/
def lookupA {α : Type} (m : List (String × α)) (k : String) : Option α :=
  (m.find? fun p => p.1 == k).map fun p => p.2

/-- The fallback loop of `get_team_stats`: scan the nickname table in
insertion order and return the market name of the first nickname that is a
case-insensitive substring of the identifier. -/
def findNickname (team_id : String) : List (String × String) → Option String
  | [] => none
  | (nick, market) :: rest =>
    if containsL (lowerL team_id) (lowerL nick) then some market
    else findNickname team_id rest

/-- Team-identifier resolution of `get_team_stats`: the numeric-code table is
tried first, then the case-insensitive substring fallback; `none` when neither
resolves (the code's `if not team_name: return None`). -/
def resolveTeam (team_id : String) : Option String :=
  match lookupA team_id_mappings team_id with
  | some nick => lookupA nba_team_mappings nick
  | none => findNickname team_id nba_team_mappings

/-- The tracker's mutable state: the two averages caches and the
last-refreshed timestamp (seconds; `none` = never refreshed). -/
structure TrackerState where
  nba_halftime_averages : List (String × ℚ)
  nba_second_half_averages : List (String × ℚ)
  last_averages_update : Option ℚ
deriving DecidableEq, Repr

/-- Python dict assignment `m[k] = v`: overwrite an existing key in place,
otherwise append. -/
def insertAvg (m : List (String × ℚ)) (k : String) (v : ℚ) : List (String × ℚ) :=
  if (m.find? fun p => p.1 == k).isSome then
    m.map fun p => if p.1 == k then (k, v) else p
  else m ++ [(k, v)]

/-- The row loop of `update_nba_halftime_averages`: each row whose score
parses is added to the cache; a row whose score fails to parse is skipped
(its `ValueError` is caught per row). -/
def addRows (m : List (String × ℚ)) (rows : List (String × Option ℚ)) :
    List (String × ℚ) :=
  rows.foldl
    (fun acc r =>
      match r.2 with
      | some v => insertAvg acc r.1 v
      | none => acc)
    m

/-- `update_nba_halftime_averages` from the source. Each fetch argument is the
parsed stats table of one HTTP request: `none` when the request raised or no
`tr-table` was found (that whole block is skipped), `some rows` otherwise.
The timestamp is set, inside the first block only, exactly when the
first-half table was found. -/
def update_nba_halftime_averages (st : TrackerState) (now : ℚ)
    (fetch1 fetch2 : Option (List (String × Option ℚ))) : TrackerState :=
  let st1 :=
    match fetch1 with
    | some rows =>
      { st with
        nba_halftime_averages := addRows st.nba_halftime_averages rows
        last_averages_update := some now }
    | none => st
  match fetch2 with
  | some rows =>
    { st1 with
      nba_second_half_averages := addRows st1.nba_second_half_averages rows }
  | none => st1

/-- The staleness test at the top of `get_team_stats`: refresh when never
updated or when more than 3600 seconds have passed. -/
def shouldRefresh (last_averages_update : Option ℚ) (now : ℚ) : Bool :=
  match last_averages_update with
  | none => true
  | some t => decide (now - t > 3600)

/-- The refresh step at the top of `get_team_stats`: the caches are updated
exactly when stale. -/
def refreshIfStale (st : TrackerState) (now : ℚ)
    (fetch1 fetch2 : Option (List (String × Option ℚ))) : TrackerState :=
  if shouldRefresh st.last_averages_update now then
    update_nba_halftime_averages st now fetch1 fetch2
  else st

/-- `get_team_stats(team_id, second_half)` from the source: refresh the
caches if stale, resolve the identifier, then look the canonical name up in
the requested segment's cache; every failure path returns `None`. Returns the
new state together with the result. -/
def get_team_stats (st : TrackerState) (now : ℚ)
    (fetch1 fetch2 : Option (List (String × Option ℚ)))
    (team_id : String) ( second_half : Bool) : TrackerState × Option ℚ :=
  let st' := refreshIfStale st now fetch1 fetch2
  match resolveTeam team_id with
  | none => (st', none)
  | some team_name =>
    if second_half then (st', lookupA st'.nba_second_half_averages team_name)
    else (st', lookupA st'.nba_halftime_averages team_name)

/-- `get_team_stats` as used inside one poll cycle, against a fixed tracker
state (the cycle model holds the caches fresh, so the staleness branch is the
identity). -/
def teamStatsPure (st : TrackerState) (team_id : String)
    ( second_half : Bool) : Option ℚ :=
  match resolveTeam team_id with
  | none => none
  | some team_name =>
    if second_half then lookupA st.nba_second_half_averages team_name
    else lookupA st.nba_halftime_averages team_name

/-- An ESPN scoreboard event with its two competitors (index 0 home, index 1
away), its `status.type.state` and `status.type.detail`. -/
structure Event where
  home : Competitor
  away : Competitor
  state : String
  detail : String
deriving DecidableEq, Repr

/-- One entry of `live_games` / `completed_games` in `monitor_scores`: the
event together with its two halftime scores. -/
structure GameInfo where
  event : Event
  home_halftime : ℚ
  away_halftime : ℚ
deriving DecidableEq, Repr

/-- The collection loop of `monitor_scores`: a game enters the cycle only
when both halftime scores are available, and goes to the completed list when
`state == 'post'`, otherwise to the live list. -/
def collectGames : List Event → List GameInfo × List GameInfo
  | [] => ([], [])
  | e :: rest =>
    let p := collectGames rest
    match get_halftime_score e.home, get_halftime_score e.away with
    | some hh, some ah =>
      if e.state == "post" then (p.1, (⟨e, hh, ah⟩ : GameInfo) :: p.2)
      else ((⟨e, hh, ah⟩ : GameInfo) :: p.1, p.2)
    | _, _ => p

/-- The live-game emphasis test of the source: bold when both teams are hot
or both are cold. -/
def emphasisLive (home_perf away_perf : String) : Bool :=
  (home_perf == "🔥" && away_perf == "🔥") ||
  (home_perf == "❄️" && away_perf == "❄️")

/-- The completed-game emphasis test of the source: bold when both teams are
hot or both cold in the first half, or both hot or both cold in the second
half. -/
def emphasisCompleted (home_first_perf away_first_perf
    home_second_perf away_second_perf : String) : Bool :=
  (home_first_perf == "🔥" && away_first_perf == "🔥") ||
  (home_first_perf == "❄️" && away_first_perf == "❄️") ||
  (home_second_perf == "🔥" && away_second_perf == "🔥") ||
  (home_second_perf == "❄️" && away_second_perf == "❄️")

/-- The data of one printed live-game line. -/
structure LiveLine where
  awayName : String
  homeName : String
  awayScore : ℚ
  homeScore : ℚ
  awayPerf : String
  homePerf : String
  bold : Bool
deriving DecidableEq, Repr

/-- The data of one printed completed-game line. -/
structure CompletedLine where
  awayName : String
  homeName : String
  awayHalftime : ℚ
  awaySecondHalf : ℚ
  homeHalftime : ℚ
  homeSecondHalf : ℚ
  awayFirstPerf : String
  awaySecondPerf : String
  homeFirstPerf : String
  homeSecondPerf : String
  bold : Bool
deriving DecidableEq, Repr

/-- The live-game branch of the print loop (it cannot fail). -/
def evalLive (st : TrackerState) (g : GameInfo) : LiveLine :=
  let home_perf :=
    analyze_performance g.home_halftime (teamStatsPure st g.event.home.teamId false)
  let away_perf :=
    analyze_performance g.away_halftime (teamStatsPure st g.event.away.teamId false)
  { awayName := g.event.away.name
    homeName := g.event.home.name
    awayScore := g.away_halftime
    homeScore := g.home_halftime
    awayPerf := away_perf
    homePerf := home_perf
    bold := emphasisLive home_perf away_perf }

/-- The completed-game branch of the print loop: `float(team.get('score', 0))`
is taken for both teams (a malformed value raises, modelled as `none`), the
second-half scores are the finals minus the halftime scores, the four
performances are classified, and the emphasis test is applied. -/
def evalCompleted (st : TrackerState) (g : GameInfo) : Option CompletedLine :=
  match entryVal g.event.home.score, entryVal g.event.away.score with
  | some home_final, some away_final =>
    let home_second_half := home_final - g.home_halftime
    let away_second_half := away_final - g.away_halftime
    let home_first_perf :=
      analyze_performance g.home_halftime (teamStatsPure st g.event.home.teamId false)
    let away_first_perf :=
      analyze_performance g.away_halftime (teamStatsPure st g.event.away.teamId false)
    let home_second_perf :=
      analyze_performance home_second_half (teamStatsPure st g.event.home.teamId true)
    let away_second_perf :=
      analyze_performance away_second_half (teamStatsPure st g.event.away.teamId true)
    some
      { awayName := g.event.away.name
        homeName := g.event.home.name
        awayHalftime := g.away_halftime
        awaySecondHalf := away_second_half
        homeHalftime := g.home_halftime
        homeSecondHalf := home_second_half
        awayFirstPerf := away_first_perf
        awaySecondPerf := away_second_perf
        homeFirstPerf := home_first_perf
        homeSecondPerf := home_second_perf
        bold := emphasisCompleted home_first_perf away_first_perf
          home_second_perf away_second_perf }
  | _, _ => none

/-- The completed-games print loop: lines are printed one game at a time; a
game whose score field does not convert raises, which the cycle-level except
clause catches, so the loop stops there (`false` = the remaining games of
this cycle were not rendered). -/
def renderCompleted (st : TrackerState) : List GameInfo → List CompletedLine × Bool
  | [] => ([], true)
  | g :: rest =>
    match evalCompleted st g with
    | some line =>
      let p := renderCompleted st rest
      (line :: p.1, p.2)
    | none => ([], false)

/-- One successfully fetched scoreboard cycle: collect the games, render all
live lines, then render completed lines until a game raises. -/
def renderCycle (st : TrackerState) (events : List Event) :
    List LiveLine × List CompletedLine × Bool :=
  let p := collectGames events
  (p.1.map (evalLive st), renderCompleted st p.2)

/-- An empty tracker state, used to instantiate theorems at concrete
inputs. -/
def stW : TrackerState := ⟨[], [], none⟩

/-- A well-formed home competitor: final 110, halftime periods 28 + 27. -/
def homeW : Competitor :=
  ⟨"Lakers", "14", some (PyVal.num 110),
    some [some (PyVal.num 28), some (PyVal.num 27)]⟩

/-- A well-formed away competitor: final 95, halftime periods 25 + 25. -/
def awayW : Competitor :=
  ⟨"Celtics", "2", some (PyVal.num 95),
    some [some (PyVal.num 25), some (PyVal.num 25)]⟩

/-- A well-formed completed game. -/
def evGood : Event := ⟨homeW, awayW, "post", "Final"⟩

/-- The collected game record of `evGood`. -/
def gameW : GameInfo := ⟨evGood, 55, 50⟩

/-- A home competitor whose `score` field is malformed (non-numeric). -/
def homeBad : Competitor :=
  ⟨"Nets", "3", some PyVal.bad, some [some (PyVal.num 20), some (PyVal.num 20)]⟩

/-- A completed game with a malformed final score on the home side. -/
def evBad : Event := ⟨homeBad, awayW, "post", "Final"⟩

/-- The collected game record of `evBad`. -/
def gBadW : GameInfo := ⟨evBad, 40, 50⟩

/-- An event whose home competitor has no `linescores` field. -/
def evMissing : Event :=
  ⟨⟨"Knicks", "20", some (PyVal.num 80), none⟩, awayW, "in", "2nd Quarter"⟩

/-- The line `evalCompleted stW gameW` produces: second halves `110 - 55` and
`95 - 50`, all four ratings no-data since `stW` has empty caches. -/
def lineW : CompletedLine :=
  { awayName := "Celtics"
    homeName := "Lakers"
    awayHalftime := 50
    awaySecondHalf := 45
    homeHalftime := 55
    homeSecondHalf := 55
    awayFirstPerf := "⚪"
    awaySecondPerf := "⚪"
    homeFirstPerf := "⚪"
    homeSecondPerf := "⚪"
    bold := false }

end SportsScores

namespace SportsScores

lemma analyze_eq_glyph (x : ℚ) (e : Option ℚ) :
    analyze_performance x e = glyph (classify x e) := by
  cases e with
  | none => rfl
  | some q =>
    simp only [analyze_performance, classify]
    split
    · rfl
    · split
      · rfl
      · split <;> rfl

/-- C1: `analyze_performance` returns no-data when the expected average is
absent or zero; otherwise, with `diff_pct = (x - e) / e * 100`, it returns hot
when `diff_pct ≥ 5`, cold when `diff_pct ≤ -5`, and neutral otherwise, both
thresholds inclusive. -/
theorem analyze_performance_spec (x : ℚ) :
    analyze_performance x none = "⚪" ∧
    analyze_performance x (some 0) = "⚪" ∧
    ∀ e : ℚ, e ≠ 0 →
      (analyze_performance x (some e) = "🔥" ↔ (x - e) / e * 100 ≥ 5) ∧
      (analyze_performance x (some e) = "❄️" ↔ (x - e) / e * 100 ≤ -5) ∧
      (analyze_performance x (some e) = "➖" ↔
        ¬ ((x - e) / e * 100 ≥ 5) ∧ ¬ ((x - e) / e * 100 ≤ -5)) := by
  refine ⟨rfl, rfl, ?_⟩
  intro e he
  simp only [analyze_performance, if_neg he]
  constructor
  · split
    · simp_all
    · split <;> simp_all
  constructor
  · split
    · rename_i h
      constructor
      · intro hc
        exact absurd hc (by decide)
      · intro hc
        exfalso
        have : (5 : ℚ) ≤ -5 := le_trans h hc
        norm_num at this
    · split <;> simp_all
  · split
    · simp_all
    · split <;> simp_all

/-- Witness for C1 at the inclusive boundary: `x = 21`, `e = 20` gives
`diff_pct = 5` exactly, and the result is the hot glyph. -/
theorem analyze_performance_spec_witness :
    (20 : ℚ) ≠ 0 ∧ analyze_performance 21 (some 20) = "🔥" :=
  ⟨by norm_num,
   ((analyze_performance_spec 21).2.2 20 (by norm_num)).1.mpr (by norm_num)⟩

/-- C2 counterexample: on a competitor whose first linescore entry has a
malformed (non-numeric) value, the source returns `None`, while the claim's
defaulting-to-0 reading would return the partial sum `10`. -/
theorem get_halftime_score_malformed_counterexample :
    get_halftime_score ⟨"Celtics", "2", none,
      some [some PyVal.bad, some (PyVal.num 10)]⟩ = none ∧
    get_halftime_score_specReading ⟨"Celtics", "2", none,
      some [some PyVal.bad, some (PyVal.num 10)]⟩ = some 10 := by
  constructor
  · rfl
  · simp [get_halftime_score_specReading, entryVal]

/-- C2 (amended): the first-half score is the sum of the first two
scoring-period values, a value defaulting to 0 only when the entry's `value`
key is missing; if either of the first two entries is malformed the result is
absent, and with fewer than two scoring periods the result is absent, never
zero or a partial sum. -/
theorem get_halftime_score_spec (c : Competitor) :
    (c.linescores = none → get_halftime_score c = none) ∧
    (∀ ls, c.linescores = some ls → ls.length < 2 → get_halftime_score c = none) ∧
    (∀ e0 e1 rest, c.linescores = some (e0 :: e1 :: rest) →
      (∀ a b, entryVal e0 = some a → entryVal e1 = some b →
        get_halftime_score c = some (a + b)) ∧
      ((entryVal e0 = none ∨ entryVal e1 = none) → get_halftime_score c = none)) ∧
    entryVal none = some 0 ∧ entryVal (some PyVal.bad) = none := by
  refine ⟨?_, ?_, ?_, rfl, rfl⟩
  · intro h
    simp [get_halftime_score, h]
  · intro ls h hlen
    rcases ls with _ | ⟨a, _ | ⟨b, t⟩⟩
    · simp [get_halftime_score, h]
    · simp [get_halftime_score, h]
    · simp only [List.length_cons] at hlen
      omega
  · intro e0 e1 rest h
    constructor
    · intro a b ha hb
      simp [get_halftime_score, h, ha, hb]
    · intro hor
      rcases hor with h0 | h1
      · simp [get_halftime_score, h, h0]
      · cases he0 : entryVal e0 <;> simp [get_halftime_score, h, h1, he0]

/-- Witness for C2 (amended) at a well-formed competitor: two numeric periods
25 and 30 sum to 55. -/
theorem get_halftime_score_spec_witness :
    get_halftime_score ⟨"Hawks", "1", none,
      some [some (PyVal.num 25), some (PyVal.num 30)]⟩ = some 55 := by
  have h := ((get_halftime_score_spec ⟨"Hawks", "1", none,
      some [some (PyVal.num 25), some (PyVal.num 30)]⟩).2.2.1
      (some (PyVal.num 25)) (some (PyVal.num 30)) [] rfl).1 25 30 rfl rfl
  norm_num at h
  exact h

lemma startsWithL_iff : ∀ (n hay : List Char),
    startsWithL hay n = true ↔ ∃ rest, hay = n ++ rest := by
  intro n
  induction n with
  | nil =>
    intro hay
    simp only [startsWithL, List.nil_append, true_iff]
    exact ⟨hay, rfl⟩
  | cons d ds ih =>
    intro hay
    cases hay with
    | nil =>
      simp [startsWithL]
    | cons c cs =>
      simp only [startsWithL, Bool.and_eq_true, beq_iff_eq, ih,
        List.cons_append, List.cons.injEq]
      constructor
      · rintro ⟨rfl, rest, rfl⟩
        exact ⟨rest, rfl, rfl⟩
      · rintro ⟨rest, rfl, rfl⟩
        exact ⟨rfl, rest, rfl⟩

lemma containsL_iff : ∀ (hay n : List Char),
    containsL hay n = true ↔ ∃ pre post, hay = pre ++ n ++ post := by
  intro hay
  induction hay with
  | nil =>
    intro n
    cases n with
    | nil =>
      exact ⟨fun _ => ⟨[], [], rfl⟩, fun _ => rfl⟩
    | cons d ds =>
      constructor
      · intro h
        simp [containsL] at h
      · rintro ⟨pre, post, h⟩
        exact absurd h.symm (by simp)
  | cons c cs ih =>
    intro n
    simp only [containsL, Bool.or_eq_true, startsWithL_iff n (c :: cs), ih]
    constructor
    · rintro (⟨rest, h⟩ | ⟨pre, post, h⟩)
      · exact ⟨[], rest, by simp [h]⟩
      · exact ⟨c :: pre, post, by simp [h]⟩
    · rintro ⟨pre, post, h⟩
      cases pre with
      | nil =>
        exact Or.inl ⟨post, by simpa using h⟩
      | cons p ps =>
        simp only [List.cons_append, List.cons.injEq] at h
        exact Or.inr ⟨ps, post, h.2⟩

lemma containsL_trans {a b c : List Char} (hab : containsL a b = true)
    (hbc : containsL b c = true) : containsL a c = true := by
  rw [containsL_iff] at hab hbc ⊢
  obtain ⟨p, q, rfl⟩ := hab
  obtain ⟨u, v, rfl⟩ := hbc
  exact ⟨p ++ u, v ++ q, by simp⟩

lemma findNickname_cons_neg {tid nick m : String} {rest : List (String × String)}
    (h : containsL (lowerL tid) (lowerL nick) = false) :
    findNickname tid ((nick, m) :: rest) = findNickname tid rest := by
  simp [findNickname, h]

lemma findNickname_cons_pos {tid nick m : String} {rest : List (String × String)}
    (h : containsL (lowerL tid) (lowerL nick) = true) :
    findNickname tid ((nick, m) :: rest) = some m := by
  simp [findNickname, h]

lemma findNickname_eq_none {tid : String} :
    ∀ {l : List (String × String)},
      (∀ p ∈ l, containsL (lowerL tid) (lowerL p.1) = false) →
      findNickname tid l = none := by
  intro l
  induction l with
  | nil =>
    intro _
    rfl
  | cons p rest ih =>
    intro h
    obtain ⟨nick, m⟩ := p
    have h1 := h (nick, m) (List.mem_cons_self _ _)
    rw [findNickname_cons_neg h1]
    exact ih fun q hq => h q (List.mem_cons_of_mem _ hq)

/-- C4: team-identifier resolution tries the numeric-code table first; only
when the identifier is not a known code does it fall back to the
case-insensitive substring scan of the nicknames, returning `none` when
neither resolves; code `"14"` and identifier `"Lakers Team"` both resolve to
`"LA Lakers"`. -/
theorem resolveTeam_spec (tid : String) :
    (∀ nick, lookupA team_id_mappings tid = some nick →
      resolveTeam tid = lookupA nba_team_mappings nick) ∧
    (lookupA team_id_mappings tid = none →
      resolveTeam tid = findNickname tid nba_team_mappings) ∧
    (lookupA team_id_mappings tid = none →
      (∀ p ∈ nba_team_mappings, containsL (lowerL tid) (lowerL p.1) = false) →
      resolveTeam tid = none) ∧
    resolveTeam "14" = some "LA Lakers" ∧
    lookupA team_id_mappings "Lakers Team" = none ∧
    resolveTeam "Lakers Team" = some "LA Lakers" := by
  refine ⟨?_, ?_, ?_, by decide, by decide, by decide⟩
  · intro nick h
    simp [resolveTeam, h]
  · intro h
    simp [resolveTeam, h]
  · intro h hall
    simp only [resolveTeam, h]
    exact findNickname_eq_none hall

/-- Witness for C4: the numeric-path hypothesis holds at `"14"`, which maps to
nickname `"Lakers"`, so resolution equals the nickname table's entry. -/
theorem resolveTeam_spec_witness :
    resolveTeam "14" = lookupA nba_team_mappings "Lakers" :=
  (resolveTeam_spec "14").1 "Lakers" (by decide)

/-- C10 counterexample: `"Hawks Hornets"` contains `"Hornets"` and is not a
numeric code, yet it resolves to `"Atlanta"` (the nickname `"Hawks"` matches
first), not to `"Brooklyn"` as the claim states. -/
theorem hornets_resolution_counterexample :
    lookupA team_id_mappings "Hawks Hornets" = none ∧
    containsL (lowerL "Hawks Hornets") (lowerL "Hornets") = true ∧
    resolveTeam "Hawks Hornets" = some "Atlanta" ∧
    resolveTeam "Hawks Hornets" ≠ some "Brooklyn" := by
  refine ⟨by decide, by decide, by decide, by decide⟩

/-- C10 (amended): nicknames are scanned in the table's fixed insertion
order, and `"nets"` is a substring of `"hornets"`; hence any non-code
identifier containing `"Hornets"` that does not also contain an earlier
nickname (`"Hawks"` or `"Celtics"`, case-insensitively) resolves to the Nets'
market name `"Brooklyn"`, not to `"Charlotte"`. -/
theorem hornets_resolution_amended (tid : String)
    (hcode : lookupA team_id_mappings tid = none)
    (hhornets : containsL (lowerL tid) (lowerL "Hornets") = true)
    (hhawks : containsL (lowerL tid) (lowerL "Hawks") = false)
    (hceltics : containsL (lowerL tid) (lowerL "Celtics") = false) :
    resolveTeam tid = some "Brooklyn" := by
  have hnets : containsL (lowerL tid) (lowerL "Nets") = true :=
    containsL_trans hhornets (by decide)
  simp only [resolveTeam, hcode]
  have htable : nba_team_mappings =
      ("Hawks", "Atlanta") :: ("Celtics", "Boston") :: ("Nets", "Brooklyn") ::
        nba_team_mappings.drop 3 := rfl
  rw [htable, findNickname_cons_neg hhawks, findNickname_cons_neg hceltics,
    findNickname_cons_pos hnets]

/-- Witness for C10 (amended) at the identifier `"Hornets"` itself. -/
theorem hornets_resolution_amended_witness :
    resolveTeam "Hornets" = some "Brooklyn" :=
  hornets_resolution_amended "Hornets" (by decide) (by decide) (by decide)
    (by decide)

/-- C3: when both fetches of a refresh fail, both cached averages mappings
are left unchanged; and the last-refreshed timestamp becomes `now` exactly
when the first-half fetch succeeds, whatever the second-half fetch does. -/
theorem update_averages_failure_spec (st : TrackerState) (now : ℚ) :
    (update_nba_halftime_averages st now none none).nba_halftime_averages =
      st.nba_halftime_averages ∧
    (update_nba_halftime_averages st now none none).nba_second_half_averages =
      st.nba_second_half_averages ∧
    ∀ fetch1 fetch2 : Option (List (String × Option ℚ)),
      (update_nba_halftime_averages st now fetch1 fetch2).last_averages_update
        = if fetch1.isSome then some now else st.last_averages_update := by
  refine ⟨rfl, rfl, ?_⟩
  intro fetch1 fetch2
  cases fetch1 <;> cases fetch2 <;> rfl

/-- C6: a lookup refreshes the averages exactly when they were never fetched
or their age exceeds 3600 seconds; otherwise the state is untouched. -/
theorem get_team_stats_refresh_spec (st : TrackerState) (now : ℚ)
    (fetch1 fetch2 : Option (List (String × Option ℚ)))
    (tid : String) (sh : Bool) :
    (shouldRefresh st.last_averages_update now = true ↔
      (st.last_averages_update = none ∨
        ∃ t, st.last_averages_update = some t ∧ now - t > 3600)) ∧
    ((st.last_averages_update = none ∨
        ∃ t, st.last_averages_update = some t ∧ now - t > 3600) →
      (get_team_stats st now fetch1 fetch2 tid sh).1 =
        update_nba_halftime_averages st now fetch1 fetch2) ∧
    (∀ t, st.last_averages_update = some t → now - t ≤ 3600 →
      (get_team_stats st now fetch1 fetch2 tid sh).1 = st) := by
  have hiff : shouldRefresh st.last_averages_update now = true ↔
      (st.last_averages_update = none ∨
        ∃ t, st.last_averages_update = some t ∧ now - t > 3600) := by
    cases h : st.last_averages_update with
    | none => simp [shouldRefresh]
    | some t => simp [shouldRefresh]
  refine ⟨hiff, ?_, ?_⟩
  · intro h
    have hb : shouldRefresh st.last_averages_update now = true := hiff.mpr h
    cases hr : resolveTeam tid <;> cases sh <;>
      simp [get_team_stats, refreshIfStale, hb, hr]
  · intro t ht hle
    have hb : shouldRefresh st.last_averages_update now = false := by
      simp [shouldRefresh, ht]
      linarith
    cases hr : resolveTeam tid <;> cases sh <;>
      simp [get_team_stats, refreshIfStale, hb, hr]

/-- Witness for C6: with a never-refreshed cache the returned state is the
refreshed one, and with a 10-second-old cache it is unchanged. -/
theorem get_team_stats_refresh_spec_witness :
    (get_team_stats ⟨[], [], none⟩ 0 none none "14" false).1 =
      update_nba_halftime_averages ⟨[], [], none⟩ 0 none none ∧
    (get_team_stats ⟨[], [], some 100⟩ 110 none none "14" false).1 =
      ⟨[], [], some 100⟩ :=
  ⟨(get_team_stats_refresh_spec ⟨[], [], none⟩ 0 none none "14" false).2.1
      (Or.inl rfl),
   (get_team_stats_refresh_spec ⟨[], [], some 100⟩ 110 none none "14"
      false).2.2 100 rfl (by norm_num)⟩

/-- C9: `get_team_stats` is a total function of its inputs (every exception
path of the source is a caught path returning `None`); its result is either
`none` or an average actually recorded, in the post-refresh state, for the
canonical name the identifier resolves to, in the cache selected by the
`second_half` flag. -/
theorem get_team_stats_total (st : TrackerState) (now : ℚ)
    (fetch1 fetch2 : Option (List (String × Option ℚ)))
    (tid : String) (sh : Bool) :
    (get_team_stats st now fetch1 fetch2 tid sh).2 = none ∨
    ∃ name v, resolveTeam tid = some name ∧
      (get_team_stats st now fetch1 fetch2 tid sh).2 = some v ∧
      ((sh = true ∧
          lookupA (get_team_stats st now fetch1 fetch2 tid
            sh).1.nba_second_half_averages name = some v) ∨
       (sh = false ∧
          lookupA (get_team_stats st now fetch1 fetch2 tid
            sh).1.nba_halftime_averages name = some v)) := by
  cases hr : resolveTeam tid with
  | none =>
    left
    simp [get_team_stats, hr]
  | some name =>
    cases sh with
    | false =>
      cases hl : lookupA (refreshIfStale st now fetch1
          fetch2).nba_halftime_averages name with
      | none =>
        left
        simp [get_team_stats, hr, hl]
      | some v =>
        right
        exact ⟨name, v, rfl, by simp [get_team_stats, hr, hl],
          Or.inr ⟨rfl, by simp [get_team_stats, hr, hl]⟩⟩
    | true =>
      cases hl : lookupA (refreshIfStale st now fetch1
          fetch2).nba_second_half_averages name with
      | none =>
        left
        simp [get_team_stats, hr, hl]
      | some v =>
        right
        exact ⟨name, v, rfl, by simp [get_team_stats, hr, hl],
          Or.inl ⟨rfl, by simp [get_team_stats, hr, hl]⟩⟩

lemma teamStatsPure_stW (tid : String) (sh : Bool) :
    teamStatsPure stW tid sh = none := by
  unfold teamStatsPure stW
  cases resolveTeam tid <;> cases sh <;> simp [lookupA]

lemma evalCompleted_stW_gameW : evalCompleted stW gameW = some lineW := by
  simp only [evalCompleted, gameW, evGood, homeW, awayW, entryVal,
    teamStatsPure_stW, analyze_performance, lineW, emphasisCompleted]
  norm_num
  decide

/-- C5: for a completed game both of whose final scores convert, the
second-half score carried on the rendered line (and fed to classification)
equals final score minus first-half score, for the home and the away team. -/
theorem second_half_score_spec (st : TrackerState) (g : GameInfo)
    (hf af : ℚ) (hh : entryVal g.event.home.score = some hf)
    (ha : entryVal g.event.away.score = some af) :
    (evalCompleted st g).isSome = true ∧
    ∀ line, evalCompleted st g = some line →
      line.homeSecondHalf = hf - g.home_halftime ∧
      line.awaySecondHalf = af - g.away_halftime := by
  constructor
  · simp [evalCompleted, hh, ha]
  · intro line hline
    simp only [evalCompleted, hh, ha, Option.some.injEq] at hline
    subst hline
    exact ⟨rfl, rfl⟩

/-- Witness for C5 at the concrete game `gameW`: finals 110 and 95, halftime
scores 55 and 50, so the rendered second halves are `110 - 55` and
`95 - 50`. -/
theorem second_half_score_spec_witness :
    lineW.homeSecondHalf = 110 - gameW.home_halftime ∧
    lineW.awaySecondHalf = 95 - gameW.away_halftime :=
  (second_half_score_spec stW gameW 110 95 rfl rfl).2 lineW
    evalCompleted_stW_gameW

/-- C7 counterexample: two teams that both rate no-data (⚪) share the same
non-neutral rating, yet the line is not emphasised, refuting the claim's
"if and only if both teams share the same non-neutral rating". -/
theorem emphasis_counterexample :
    ¬ (emphasisLive (analyze_performance 50 none) (analyze_performance 50 none)
          = true ↔
        (analyze_performance 50 none = analyze_performance 50 none ∧
         analyze_performance 50 none ≠ "➖")) := by
  decide

/-- C7 (amended): a rendered line is emphasised if and only if both teams
share the same rating and that rating is hot or cold (no-data, like neutral,
never triggers emphasis); for completed games, if and only if they share the
same hot-or-cold rating in the same half, first or second. -/
theorem emphasis_spec :
    (∀ r1 r2 r3 r4 : Rating,
      (emphasisLive (glyph r1) (glyph r2) = true ↔
        (r1 = r2 ∧ (r1 = Rating.hot ∨ r1 = Rating.cold))) ∧
      (emphasisCompleted (glyph r1) (glyph r2) (glyph r3) (glyph r4) = true ↔
        ((r1 = r2 ∧ (r1 = Rating.hot ∨ r1 = Rating.cold)) ∨
         (r3 = r4 ∧ (r3 = Rating.hot ∨ r3 = Rating.cold))))) ∧
    (∀ st g, (evalLive st g).bold =
      emphasisLive (evalLive st g).homePerf (evalLive st g).awayPerf) ∧
    (∀ st g line, evalCompleted st g = some line →
      line.bold = emphasisCompleted line.homeFirstPerf line.awayFirstPerf
        line.homeSecondPerf line.awaySecondPerf) := by
  refine ⟨by decide, fun st g => rfl, ?_⟩
  intro st g line hline
  cases hh : entryVal g.event.home.score with
  | none => simp [evalCompleted, hh] at hline
  | some hf =>
    cases ha : entryVal g.event.away.score with
    | none => simp [evalCompleted, hh, ha] at hline
    | some af =>
      simp only [evalCompleted, hh, ha, Option.some.injEq] at hline
      subst hline
      rfl

/-- Witness for C7 (amended): the concrete completed line of `gameW` carries
exactly the emphasis computed from its four ratings. -/
theorem emphasis_spec_witness :
    lineW.bold = emphasisCompleted lineW.homeFirstPerf lineW.awayFirstPerf
      lineW.homeSecondPerf lineW.awaySecondPerf :=
  emphasis_spec.2.2 stW gameW lineW evalCompleted_stW_gameW

/-- C8 counterexample: in a cycle of two completed games in which the first
has a malformed (non-numeric) score, no completed line at all is rendered and
the cycle aborts, although the second game renders fine on its own — refuting
"only that single game is skipped, every other game still rendered". -/
theorem single_game_skip_counterexample :
    (renderCycle stW [evBad, evGood]).2.1 = [] ∧
    (renderCycle stW [evBad, evGood]).2.2 = false ∧
    ((renderCycle stW [evGood]).2.1).length = 1 := by
  refine ⟨?_, ?_, ?_⟩
  · simp [renderCycle, collectGames, renderCompleted, evalCompleted, evBad,
      evGood, homeBad, homeW, awayW, get_halftime_score, entryVal]
  · simp [renderCycle, collectGames, renderCompleted, evalCompleted, evBad,
      evGood, homeBad, homeW, awayW, get_halftime_score, entryVal]
  · simp [renderCycle, collectGames, renderCompleted, evalCompleted, evGood,
      homeW, awayW, get_halftime_score, entryVal, teamStatsPure_stW,
      analyze_performance]

/-- C8 (amended): a game with missing or malformed linescores is filtered out
on its own, leaving the rest of the cycle intact, and a cycle whose completed
games all have convertible scores renders every one of them; but a completed
game with a non-numeric score aborts rendering of itself and of every later
completed game of the cycle; live lines are always all rendered. -/
theorem single_game_skip_amended :
    (∀ e rest,
      (get_halftime_score e.home = none ∨ get_halftime_score e.away = none) →
      collectGames (e :: rest) = collectGames rest) ∧
    (∀ st games, (∀ g ∈ games, (evalCompleted st g).isSome = true) →
      ((renderCompleted st games).1).length = games.length ∧
      (renderCompleted st games).2 = true) ∧
    (∀ st g rest, evalCompleted st g = none →
      renderCompleted st (g :: rest) = ([], false)) ∧
    (∀ st events,
      ((renderCycle st events).1).length = ((collectGames events).1).length) := by
  refine ⟨?_, ?_, ?_, ?_⟩
  · intro e rest h
    rcases h with h | h
    · simp [collectGames, h]
    · cases hh : get_halftime_score e.home <;> simp [collectGames, hh, h]
  · intro st games h
    induction games with
    | nil => exact ⟨rfl, rfl⟩
    | cons g rest ih =>
      have hg := h g (List.mem_cons_self _ _)
      rw [Option.isSome_iff_exists] at hg
      obtain ⟨line, hline⟩ := hg
      have hrest := ih fun q hq => h q (List.mem_cons_of_mem _ hq)
      constructor
      · simp [renderCompleted, hline, hrest.1]
      · simp [renderCompleted, hline, hrest.2]
  · intro st g rest h
    simp [renderCompleted, h]
  · intro st events
    simp [renderCycle]

/-- Witness for C8 (amended): a live game with no `linescores` is dropped
without touching the rest; the all-well-formed singleton cycle renders its one
game; the malformed-score singleton aborts with nothing rendered. -/
theorem single_game_skip_amended_witness :
    collectGames [evMissing] = collectGames [] ∧
    ((renderCompleted stW [gameW]).1).length = [gameW].length ∧
    renderCompleted stW [gBadW] = ([], false) :=
  ⟨single_game_skip_amended.1 evMissing [] (Or.inl rfl),
   (single_game_skip_amended.2.1 stW [gameW] (by
      intro g hg
      simp only [List.mem_singleton] at hg
      subst hg
      simp [evalCompleted_stW_gameW])).1,
   single_game_skip_amended.2.2.1 stW gBadW [] rfl⟩

end SportsScores
